import Mathlib

/-!
Verification development for the `family_portfolio` repository.

Two source files are embedded:

* `portfolio/portfolio8.py` — the valuation engine (`guess_currency`,
  `calculate_portfolio`, and the module-level per-ticker summary built with
  `groupby("ticker").agg(...)` followed by `sort_values("pnl_pct", ascending=False)`).
  Embedded in namespace `FamilyPortfolio.Valuation`.
* `portfolio8.py` — the trade-ledger replay (`apply_trades`) which rebuilds a
  daily total-value series from a holdings table and a trade ledger.
  Embedded in namespace `FamilyPortfolio.History`.

Modelling conventions:

* Monetary amounts are exact rationals (the spec's data model uses `decimal`);
  binary floating-point rounding is abstracted away, but the *special values*
  of pandas/NumPy float arithmetic (±infinity, NaN, and NaN-skipping sums and
  means) are modelled explicitly by the `PFloat` type, because the code performs
  unguarded divisions whose inf/NaN outcomes are observable behaviour.
* External services (yfinance price/sector lookups, the live FX fetch) are
  injected parameters, exactly as the columns they populate are consumed by the
  code: `prices : String → Option ℚ` models the `prices` dict (a ticker whose
  fetch failed maps to `None`, which pandas stores as NaN), `sectors` models
  the `sectors` dict, and the FX dict is an association list.
* A pandas DataFrame is a list of rows.  Optional input columns (`currency`,
  `sector`, `realized_pnl_jpy`) are modelled by `has*` flags on the context:
  `df.get(col, default)` uses the whole column when present and the default
  otherwise.
-/

namespace FamilyPortfolio

/-- A pandas float64 cell, with exact rational arithmetic in place of binary
rounding: a finite value, one of the two infinities, or NaN. -/
inductive PFloat where
  | fin : ℚ → PFloat
  | pinf : PFloat
  | ninf : PFloat
  | nan : PFloat
deriving DecidableEq, Repr

/-- `true` iff the value is NaN (used to model pandas `skipna` behaviour). -/
def isNan : PFloat → Bool
  | .nan => true
  | _ => false

/-- `true` iff the value is an ordinary finite number. -/
def isFinite : PFloat → Bool
  | .fin _ => true
  | _ => false

/-- IEEE-style addition on `PFloat`. -/
def padd : PFloat → PFloat → PFloat
  | .nan, _ => .nan
  | _, .nan => .nan
  | .fin a, .fin b => .fin (a + b)
  | .pinf, .ninf => .nan
  | .ninf, .pinf => .nan
  | .pinf, _ => .pinf
  | _, .pinf => .pinf
  | .ninf, _ => .ninf
  | _, .ninf => .ninf

/-- IEEE-style negation on `PFloat`. -/
def pneg : PFloat → PFloat
  | .fin a => .fin (-a)
  | .pinf => .ninf
  | .ninf => .pinf
  | .nan => .nan

/-- IEEE-style subtraction on `PFloat`. -/
def psub (a b : PFloat) : PFloat := padd a (pneg b)

/-- IEEE-style multiplication on `PFloat` (`±∞ * 0 = NaN`). -/
def pmul : PFloat → PFloat → PFloat
  | .nan, _ => .nan
  | _, .nan => .nan
  | .fin a, .fin b => .fin (a * b)
  | .pinf, .pinf => .pinf
  | .pinf, .ninf => .ninf
  | .ninf, .pinf => .ninf
  | .ninf, .ninf => .pinf
  | .pinf, .fin b => if 0 < b then .pinf else if b < 0 then .ninf else .nan
  | .ninf, .fin b => if 0 < b then .ninf else if b < 0 then .pinf else .nan
  | .fin a, .pinf => if 0 < a then .pinf else if a < 0 then .ninf else .nan
  | .fin a, .ninf => if 0 < a then .ninf else if a < 0 then .pinf else .nan

/-- IEEE-style division on `PFloat`: dividing a nonzero finite value by zero
gives a signed infinity and `0 / 0 = NaN` — this is what a NumPy float
division by zero produces (no exception is raised). -/
def pdiv : PFloat → PFloat → PFloat
  | .nan, _ => .nan
  | _, .nan => .nan
  | .fin a, .fin b =>
      if b = 0 then (if 0 < a then .pinf else if a < 0 then .ninf else .nan)
      else .fin (a / b)
  | .fin _, .pinf => .fin 0
  | .fin _, .ninf => .fin 0
  | .pinf, .fin b => if b < 0 then .ninf else .pinf
  | .ninf, .fin b => if b < 0 then .pinf else .ninf
  | .pinf, _ => .nan
  | .ninf, _ => .nan

/-- Strict greater-than on `PFloat`; any comparison involving NaN is `false`. -/
def pgt : PFloat → PFloat → Bool
  | .nan, _ => false
  | _, .nan => false
  | .fin a, .fin b => decide (b < a)
  | .pinf, .pinf => false
  | .pinf, _ => true
  | .ninf, _ => false
  | .fin _, .pinf => false
  | .fin _, .ninf => true

/-- Pandas `Series.sum()` with the default `skipna=True`: NaN entries are
dropped, the remaining entries are added with `padd`, and the empty sum is 0. -/
def psum : List PFloat → PFloat
  | [] => .fin 0
  | x :: xs => if isNan x then psum xs else padd x (psum xs)

/-- Pandas `mean` aggregation: sum of the non-NaN entries divided by their
count; all-NaN (or empty) input yields NaN. -/
def pmean (l : List PFloat) : PFloat :=
  let k := (l.filter (fun x => !isNan x)).length
  if k = 0 then .nan else pdiv (psum l) (.fin (k : ℚ))

/-- Pandas `first` aggregation on a float column: the first non-NaN entry. -/
def pfirst (l : List PFloat) : PFloat :=
  (l.filter (fun x => !isNan x)).headD .nan

/-- The rational carried by a finite value, `0` otherwise (used to state facts
about NaN-skipping sums over lists that contain no infinities). -/
def toQ : PFloat → ℚ
  | .fin q => q
  | _ => 0

/-- `true` iff the value is finite or NaN (never an infinity).  Every money
column produced by `calculate_portfolio` except the two unguarded ratio
columns satisfies this. -/
def finOrNan : PFloat → Bool
  | .pinf => false
  | .ninf => false
  | _ => true

/-- Sum of `toQ` over a list, the rational shadow of `psum`. -/
def qsum : List PFloat → ℚ
  | [] => 0
  | x :: xs => toQ x + qsum xs

/-- A Python-dict lookup on an association list (first matching key wins;
keys are unique in the dicts the code builds). -/
def alookup : List (String × ℚ) → String → Option ℚ
  | [], _ => none
  | (k, v) :: rest, key => if k = key then some v else alookup rest key

/-- One row of the holdings CSV.  `currency`, `sector` and `realized` model the
optional columns (consulted only when the corresponding `has*` flag of the
context is set). -/
structure Holding where
  ticker : String
  asset_type : String
  shares : ℚ
  buy_price : ℚ
  currency : String := ""
  sector : String := ""
  realized : ℚ := 0
deriving DecidableEq, Repr

/-- One row of the trades CSV.  `apply_trades` reads `date`, `ticker`,
`action` and `shares`; the `currency` column is carried by the CSV but the
code takes the currency from the matching portfolio row instead. -/
structure Trade where
  date : ℤ
  ticker : String
  action : String
  shares : ℚ
  currency : String := ""
deriving DecidableEq, Repr

namespace Valuation

/-- Python's `str.endswith`, spelled out over the character list: the last
`|suf|` characters of `s` equal `suf` (false when `suf` is longer than `s`). -/
def strEndsWith (s suf : String) : Bool :=
  s.data.drop (s.data.length - suf.data.length) == suf.data

/-- `guess_currency` from `portfolio/portfolio8.py`: tickers ending in `.T`
trade in JPY, everything else defaults to USD. -/
def guess_currency (ticker : String) : String :=
  if strEndsWith ticker ".T" then "JPY" else "USD"

/-- The injected configuration of `calculate_portfolio`: the FX dict
(`FX_TO_JPY`), the fee rate (`FEE_RATE`), the price/sector provider
(`load_prices_and_sector`, with `none` for a failed price fetch), and flags
recording which optional columns the input CSV carries. -/
structure Ctx where
  fx : List (String × ℚ)
  feeRate : ℚ
  prices : String → Option ℚ
  sectors : String → String
  hasCurrency : Bool
  hasSector : Bool
  hasRealized : Bool

/-- `FEE_RATE = 0.00495` from `portfolio/portfolio8.py`. -/
def FEE_RATE : ℚ := 99 / 20000

/-- The `df["asset_type"].isin(["stock","crypto"])` mask. -/
def isEquity (h : Holding) : Bool :=
  h.asset_type == "stock" || h.asset_type == "crypto"

/-- A dict lookup that stores `None`/missing as NaN, as
`df["ticker"].map(prices)` does. -/
def ofOpt : Option ℚ → PFloat
  | some q => .fin q
  | none => .nan

/-- `FX_TO_JPY.get`-style lookup used for `df["currency"].map(FX_TO_JPY).fillna(1.0)`:
an unknown currency code falls back to the multiplier `1`. -/
def fxMul (fx : List (String × ℚ)) (cur : String) : ℚ :=
  (alookup fx cur).getD 1

/-- One row of the valued-holdings table produced by `calculate_portfolio`.
Columns that the code can only ever fill with finite numbers are typed `ℚ`;
columns that can receive NaN (via a missing price) or ±infinity/NaN (via the
unguarded divisions) are typed `PFloat`. -/
structure ValuedRow where
  ticker : String
  asset_type : String
  currency : String
  sector : String
  shares : ℚ
  buy_price : ℚ
  fee : ℚ
  cost_basis : ℚ
  fx_to_jpy : ℚ
  cost_jpy : ℚ
  realized_pnl_jpy : ℚ
  prev_close : PFloat
  market_value : PFloat
  pnl_abs : PFloat
  pnl_pct : PFloat
  mv_jpy : PFloat
  pnl_jpy : PFloat
  pnl_contrib : PFloat
  pnl_over_mv_pct : PFloat
deriving DecidableEq, Repr

/-- `df["currency"] = df.get("currency", df["ticker"].map(guess_currency))`:
the explicit currency column wins when the CSV carries one, otherwise the
suffix heuristic fills it. -/
def colCurrency (c : Ctx) (h : Holding) : String :=
  if c.hasCurrency then h.currency else guess_currency h.ticker

/-- `df["fee"] = 0` followed by the `mask_equity` assignment
`buy_price * shares * FEE_RATE`. -/
def colFee (c : Ctx) (h : Holding) : ℚ :=
  if isEquity h then h.buy_price * h.shares * c.feeRate else 0

/-- `df["prev_close"] = df["ticker"].map(prices)`: the provider dict only has
entries for the equity/crypto tickers `tgts`, so any other ticker reads NaN;
a failed fetch (`None` in the dict) is NaN as well. -/
def colPrevClose (c : Ctx) (tgts : List String) (h : Holding) : PFloat :=
  if h.ticker ∈ tgts then ofOpt (c.prices h.ticker) else .nan

/-- `df["sector"] = df.get("sector", df["ticker"].map(lambda t: sectors.get(t, "Cash")))`. -/
def colSector (c : Ctx) (tgts : List String) (h : Holding) : String :=
  if c.hasSector then h.sector
  else if h.ticker ∈ tgts then c.sectors h.ticker else "Cash"

/-- `df["market_value"] = 0` followed by the `mask_equity` assignment
`shares * prev_close` and the `mask_cash` assignment `shares`. -/
def colMarketValue (c : Ctx) (tgts : List String) (h : Holding) : PFloat :=
  if isEquity h then pmul (.fin h.shares) (colPrevClose c tgts h)
  else if h.asset_type == "cash" then .fin h.shares
  else .fin 0

/-- `df["cost_basis"] = 0` followed by the `mask_equity` assignment
`shares * buy_price + fee` and the `mask_cash` assignment `shares`. -/
def colCostBasis (c : Ctx) (h : Holding) : ℚ :=
  if isEquity h then h.shares * h.buy_price + colFee c h
  else if h.asset_type == "cash" then h.shares
  else 0

/-- `df["pnl_abs"] = df["market_value"] - df["cost_basis"]`. -/
def colPnlAbs (c : Ctx) (tgts : List String) (h : Holding) : PFloat :=
  psub (colMarketValue c tgts h) (.fin (colCostBasis c h))

/-- `df["pnl_pct"] = df["pnl_abs"] / df["cost_basis"] * 100` — an unguarded
float division. -/
def colPnlPct (c : Ctx) (tgts : List String) (h : Holding) : PFloat :=
  pmul (pdiv (colPnlAbs c tgts h) (.fin (colCostBasis c h))) (.fin 100)

/-- `df["fx_to_jpy"] = df["currency"].map(FX_TO_JPY).fillna(1.0)`. -/
def colFxToJpy (c : Ctx) (h : Holding) : ℚ :=
  fxMul c.fx (colCurrency c h)

/-- `df["mv_jpy"] = df["market_value"] * df["fx_to_jpy"]`. -/
def colMvJpy (c : Ctx) (tgts : List String) (h : Holding) : PFloat :=
  pmul (colMarketValue c tgts h) (.fin (colFxToJpy c h))

/-- `df["cost_jpy"] = df["cost_basis"] * df["fx_to_jpy"]`. -/
def colCostJpy (c : Ctx) (h : Holding) : ℚ :=
  colCostBasis c h * colFxToJpy c h

/-- `df["pnl_jpy"] = df["mv_jpy"] - df["cost_jpy"]`. -/
def colPnlJpy (c : Ctx) (tgts : List String) (h : Holding) : PFloat :=
  psub (colMvJpy c tgts h) (.fin (colCostJpy c h))

/-- `df["pnl_over_mv_pct"] = df["pnl_jpy"] / df["mv_jpy"] * 100` — the second
unguarded float division. -/
def colPnlOverMv (c : Ctx) (tgts : List String) (h : Holding) : PFloat :=
  pmul (pdiv (colPnlJpy c tgts h) (colMvJpy c tgts h)) (.fin 100)

/-- The per-row part of `calculate_portfolio` (everything up to and including
`pnl_over_mv_pct`, one `col*` definition per column assignment of the source;
the portfolio-wide `pnl_contrib` column is filled in by `setContrib`
afterwards).  `tgts` is the list of tickers the price/sector provider was
queried for (`tickers_target`). -/
def valueRow (c : Ctx) (tgts : List String) (h : Holding) : ValuedRow :=
  { ticker := h.ticker
    asset_type := h.asset_type
    currency := colCurrency c h
    sector := colSector c tgts h
    shares := h.shares
    buy_price := h.buy_price
    fee := colFee c h
    cost_basis := colCostBasis c h
    fx_to_jpy := colFxToJpy c h
    cost_jpy := colCostJpy c h
    realized_pnl_jpy := if c.hasRealized then h.realized else 0
    prev_close := colPrevClose c tgts h
    market_value := colMarketValue c tgts h
    pnl_abs := colPnlAbs c tgts h
    pnl_pct := colPnlPct c tgts h
    mv_jpy := colMvJpy c tgts h
    pnl_jpy := colPnlJpy c tgts h
    pnl_contrib := .fin 0
    pnl_over_mv_pct := colPnlOverMv c tgts h }

/-- `df["pnl_contrib"] = df["pnl_jpy"] / total_pnl * 100 if total_pnl != 0 else 0`.
Note the Python comparison `total_pnl != 0` is `True` for NaN and the
infinities, so the guard only catches the exact float zero. -/
def setContrib (total : PFloat) (v : ValuedRow) : ValuedRow :=
  { v with pnl_contrib :=
      if total = .fin 0 then .fin 0 else pmul (pdiv v.pnl_jpy total) (.fin 100) }

/-- `tickers_target = df[df["asset_type"].isin(["stock","crypto"])]["ticker"].unique()`.
The `unique()` only deduplicates provider fetches; membership is unchanged,
which is all the later `map` lookups observe. -/
def targets (df : List Holding) : List String :=
  (df.filter isEquity).map (fun h => h.ticker)

/-- The valued table before the portfolio-wide contribution column. -/
def baseRows (c : Ctx) (df : List Holding) : List ValuedRow :=
  df.map (valueRow c (targets df))

/-- `total_pnl = df["pnl_jpy"].sum()`. -/
def totalPnlJpy (c : Ctx) (df : List Holding) : PFloat :=
  psum ((baseRows c df).map (fun v => v.pnl_jpy))

/-- `calculate_portfolio` from `portfolio/portfolio8.py`. -/
def calculate_portfolio (c : Ctx) (df : List Holding) : List ValuedRow :=
  (baseRows c df).map (setContrib (totalPnlJpy c df))

/-- One row of the module-level `ticker_summary` table
(`df_portfolio.groupby("ticker").agg({...}).reset_index()`). -/
structure TSRow where
  ticker : String
  asset_type : String
  shares : ℚ
  buy_price : ℚ
  prev_close : PFloat
  market_value : PFloat
  pnl_abs : PFloat
  pnl_pct : PFloat
  mv_jpy : PFloat
  pnl_jpy : PFloat
  pnl_ratio_pct : PFloat
  pnl_over_mv_pct : PFloat
  sector : String
deriving DecidableEq, Repr

/-- Sum of a rational column over a group. -/
def qlsum (l : List ℚ) : ℚ := l.foldr (· + ·) 0

/-- The `agg` combine step for one ticker group: `sum` for the flow columns,
`mean` for the ratio columns, `first` for the columns expected constant within
a group.  `pnl_ratio_pct` is the UI-level contribution column; it is computed
from the same `total_pnl`/`pnl_jpy` expression as `pnl_contrib`, so the
`pnl_contrib` field stands in for it here. -/
def aggGroup (t : String) (rows : List Valuation.ValuedRow) : TSRow :=
  { ticker := t
    asset_type := (rows.map (fun v => v.asset_type)).headD ""
    shares := qlsum (rows.map (fun v => v.shares))
    buy_price := qlsum (rows.map (fun v => v.buy_price)) / (rows.length : ℚ)
    prev_close := pfirst (rows.map (fun v => v.prev_close))
    market_value := psum (rows.map (fun v => v.market_value))
    pnl_abs := psum (rows.map (fun v => v.pnl_abs))
    pnl_pct := pmean (rows.map (fun v => v.pnl_pct))
    mv_jpy := psum (rows.map (fun v => v.mv_jpy))
    pnl_jpy := psum (rows.map (fun v => v.pnl_jpy))
    pnl_ratio_pct := psum (rows.map (fun v => v.pnl_contrib))
    pnl_over_mv_pct := pmean (rows.map (fun v => v.pnl_over_mv_pct))
    sector := (rows.map (fun v => v.sector)).headD "" }

/-- The distinct tickers in first-occurrence order (`seen` accumulates the
keys already emitted), as `groupby` group formation produces them before the
keys are sorted. -/
def dedupKeys (seen : List String) : List String → List String
  | [] => []
  | s :: rest =>
      if s ∈ seen then dedupKeys seen rest else s :: dedupKeys (s :: seen) rest

/-- Lexicographic strict order on character lists (the standard string
order pandas sorts group keys by). -/
def charListLt : List Char → List Char → Bool
  | [], [] => false
  | [], _ :: _ => true
  | _ :: _, [] => false
  | a :: as, b :: bs => if a < b then true else if b < a then false else charListLt as bs

/-- Lexicographic strict order on strings. -/
def strLt (a b : String) : Bool := charListLt a.data b.data

/-- Insert into an ascending list of strings (used for the alphabetical
ordering of `groupby` keys — pandas `groupby` sorts group keys by default). -/
def insertStr (s : String) : List String → List String
  | [] => [s]
  | t :: ts => if strLt s t then s :: t :: ts else t :: insertStr s ts

/-- Ascending sort of the group keys. -/
def sortStr (l : List String) : List String := l.foldr insertStr []

/-- Stable descending insertion by `pnl_pct`: walk past the rows that are
strictly greater, so equal keys keep their relative order.  NumPy's sort uses
insertion sort on the small arrays a dashboard table produces, so this models
the observable tie behaviour of `sort_values`. -/
def insertDesc (x : TSRow) : List TSRow → List TSRow
  | [] => [x]
  | y :: ys => if pgt y.pnl_pct x.pnl_pct then y :: insertDesc x ys else x :: y :: ys

/-- Stable descending sort by `pnl_pct`. -/
def sortDescRows (l : List TSRow) : List TSRow := l.foldr insertDesc []

/-- The module-level `ticker_summary` pipeline of `portfolio/portfolio8.py`:
group the valued holdings by ticker (keys in ascending order — pandas
`groupby` sorts them), aggregate each group, then
`sort_values("pnl_pct", ascending=False)` (NaN keys are placed last,
pandas' default `na_position`). -/
def ticker_summary (out : List Valuation.ValuedRow) : List TSRow :=
  let keys := sortStr (dedupKeys [] (out.map (fun v => v.ticker)))
  let groups := keys.map (fun t => aggGroup t (out.filter (fun v => v.ticker == t)))
  sortDescRows (groups.filter (fun g => !isNan g.pnl_pct))
    ++ groups.filter (fun g => isNan g.pnl_pct)

/-- The adjacent-pair check for a descending table: no row has a `pnl_pct`
strictly greater than its predecessor's. -/
def sortedDesc : List TSRow → Bool
  | [] => true
  | [_] => true
  | a :: b :: l => !pgt b.pnl_pct a.pnl_pct && sortedDesc (b :: l)

end Valuation

namespace History

/-- `FX_TO_JPY.get(currency, 1)` from `portfolio8.py`. -/
def fxGet (fx : List (String × ℚ)) (cur : String) : ℚ :=
  (alookup fx cur).getD 1

/-- `df_portfolio[df_portfolio["ticker"]==ticker].iloc[0]`: the first holdings
row with the given ticker; `none` models the `IndexError` raised by `.iloc[0]`
on an empty selection. -/
def findRow : List Holding → String → Option Holding
  | [], _ => none
  | h :: rest, t => if h.ticker = t then some h else findRow rest t

/-- Write into a Python-dict-like association list: an existing key keeps its
position, a new key is appended (insertion order, as for a Python dict). -/
def updAssoc : List (String × ℚ) → String → ℚ → List (String × ℚ)
  | [], k, v => [(k, v)]
  | (k', v') :: rest, k, v =>
      if k' = k then (k, v) :: rest else (k', v') :: updAssoc rest k v

/-- `holdings.get(ticker, 0)`. -/
def lookupD (st : List (String × ℚ)) (k : String) : ℚ :=
  (alookup st k).getD 0

/-- `holdings[row["ticker"]] = row["shares"]` over the portfolio rows (a later
duplicate ticker row overwrites an earlier one, as for a dict). -/
def initHoldings (df : List Holding) : List (String × ℚ) :=
  df.foldl (fun st h => updAssoc st h.ticker h.shares) []

/-- The signed share adjustment of one trade: `+shares` for `buy`,
`-shares` for `sell`, nothing for any other action string. -/
def tradeDelta (tr : Trade) : ℚ :=
  if tr.action = "buy" then tr.shares
  else if tr.action = "sell" then -tr.shares
  else 0

/-- Apply one trade to the holdings dict:
`holdings[ticker] = holdings.get(ticker, 0) ± qty` with no balance check. -/
def applyTrade (st : List (String × ℚ)) (tr : Trade) : List (String × ℚ) :=
  if tr.action = "buy" ∨ tr.action = "sell" then
    updAssoc st tr.ticker (lookupD st tr.ticker + tradeDelta tr)
  else st

/-- `df_trades[df_trades["date"] == d]`.  The source sorts the ledger by date
first; since trades are then selected by exact date, each day's batch is the
ledger's same-date rows in their original (stable-sort) order, which is what
the plain filter yields. -/
def tradesOn (trades : List Trade) (d : ℤ) : List Trade :=
  trades.filter (fun tr => tr.date == d)

/-- One day's trade-application loop. -/
def stepDay (trades : List Trade) (st : List (String × ℚ)) (d : ℤ) :
    List (String × ℚ) :=
  (tradesOn trades d).foldl applyTrade st

/-- The daily total-value loop of `apply_trades`: zero-share entries are
skipped; any other entry looks up its portfolio row (failure — an absent
ticker — aborts with `IndexError`, modelled as `none`); a `stock` row
contributes `price * fx * qty` when the price fetch succeeds and nothing when
it fails (the bare `except: pass`); any other row contributes `qty * fx`. -/
def totalValue (fx : List (String × ℚ)) (prices : String → Option ℚ)
    (df : List Holding) : List (String × ℚ) → Option ℚ
  | [] => some 0
  | (t, q) :: rest =>
      if q = 0 then totalValue fx prices df rest
      else
        (findRow df t).bind fun row =>
          let contrib : ℚ :=
            if row.asset_type = "stock" then
              ((prices t).map (fun p => p * fxGet fx row.currency * q)).getD 0
            else q * fxGet fx row.currency
          (totalValue fx prices df rest).map (fun s => contrib + s)

/-- The daily loop of `apply_trades`: apply the day's trades, then record the
portfolio total; a lookup failure on any day makes the whole call fail. -/
def replay (fx : List (String × ℚ)) (prices : String → Option ℚ)
    (df : List Holding) (trades : List Trade) :
    List ℤ → List (String × ℚ) → Option (List ℚ)
  | [], _ => some []
  | d :: ds, st =>
      let st' := stepDay trades st d
      (totalValue fx prices df st').bind fun v =>
        (replay fx prices df trades ds st').map (fun l => v :: l)

/-- `df_trades["date"].min()` (`none` for an empty ledger, on which the
source's `date_range` call fails). -/
def minDate : List Trade → Option ℤ
  | [] => none
  | tr :: trs => some (trs.foldl (fun m t => min m t.date) tr.date)

/-- `pd.date_range(start, end, freq="D")`: the inclusive run of days, empty
when the end precedes the start. -/
def dateRange (a b : ℤ) : List ℤ :=
  (List.range (b - a + 1).toNat).map (fun i => a + (i : ℤ))

/-- `apply_trades` from `portfolio8.py`, with the date index one day before
the earliest trade through `today`.  Dates are day numbers; the FX dict and
the per-ticker latest-price lookup (which the source re-fetches with the same
`period="1d"` on every day, hence a single value per ticker) are injected. -/
def apply_trades (fx : List (String × ℚ)) (prices : String → Option ℚ)
    (df_portfolio : List Holding) (df_trades : List Trade) (today : ℤ) :
    Option (List ℚ) :=
  (minDate df_trades).bind fun m =>
    replay fx prices df_portfolio df_trades (dateRange (m - 1) today)
      (initHoldings df_portfolio)

/-- `true` iff, over the given run of days, the replay's running share count
for ticker `x` is nonzero right after some day's trades are applied (i.e. `x`
"reaches a nonzero cumulative share count during replay"). -/
def badIn (trades : List Trade) (x : String) :
    List ℤ → List (String × ℚ) → Bool
  | [], _ => false
  | d :: ds, st =>
      let st' := stepDay trades st d
      decide (lookupD st' x ≠ 0) || badIn trades x ds st'

end History

namespace Scenario

open Valuation History

/-- The FX table of the spec's worked scenarios: `USD → 155`, `JPY → 1`. -/
def fx155 : List (String × ℚ) := [("USD", 155), ("JPY", 1)]

/-- Context for the Toyota scenario of §8 of the spec: `7203.T` has previous
close 2100, `FEE_RATE = 0.00495`, explicit `currency` column present. -/
def ctx1 : Ctx :=
  { fx := fx155
    feeRate := 99 / 20000
    prices := fun t => if t = "7203.T" then some 2100 else none
    sectors := fun _ => "Auto"
    hasCurrency := true
    hasSector := true
    hasRealized := false }

/-- The Toyota holding `{ticker:"7203.T", asset_type:"stock", shares:100,
buy_price:2000, currency:"JPY"}`. -/
def h1 : Holding :=
  { ticker := "7203.T", asset_type := "stock", shares := 100, buy_price := 2000
    currency := "JPY", sector := "Auto" }

def df1 : List Holding := [h1]

/-- The valued Toyota row (head of the one-row valued table). -/
def v1 : ValuedRow := (calculate_portfolio ctx1 df1).headD (valueRow ctx1 [] h1)

/-- The cash scenario of §8 of the spec: `{shares:500000, currency:"JPY"}`. -/
def h2 : Holding :=
  { ticker := "CASH.JPY", asset_type := "cash", shares := 500000, buy_price := 0
    currency := "JPY" }

def df2 : List Holding := [h2]

def v2 : ValuedRow := (calculate_portfolio ctx1 df2).headD (valueRow ctx1 [] h2)

/-- A stock bought at price 0 (e.g. a grant): its cost basis is 0 while its
market value is positive, exercising the `pnl_pct` division. -/
def h3 : Holding :=
  { ticker := "GIFT", asset_type := "stock", shares := 100, buy_price := 0
    currency := "JPY" }

/-- An empty cash row: market value 0, exercising the `pnl_over_mv_pct`
division. -/
def h3z : Holding :=
  { ticker := "EMPTY", asset_type := "cash", shares := 0, buy_price := 0
    currency := "JPY" }

def ctx3 : Ctx :=
  { fx := fx155
    feeRate := 99 / 20000
    prices := fun t => if t = "GIFT" then some 2100 else none
    sectors := fun _ => "Tech"
    hasCurrency := true
    hasSector := true
    hasRealized := false }

def df3 : List Holding := [h3, h3z]

def v3 : ValuedRow := (calculate_portfolio ctx3 df3).headD (valueRow ctx3 [] h3)

def v3z : ValuedRow := ((calculate_portfolio ctx3 df3).drop 1).headD (valueRow ctx3 [] h3z)

/-- A cash holding whose currency code `EUR` is absent from the FX table. -/
def h8 : Holding :=
  { ticker := "CASH.EUR", asset_type := "cash", shares := 1000, buy_price := 0
    currency := "EUR" }

def df8 : List Holding := [h8]

def v8 : ValuedRow := (calculate_portfolio ctx1 df8).headD (valueRow ctx1 [] h8)

/-- Context for the tie-ordering scenario: both tickers have the same price,
so both rows earn the same `pnl_pct`. -/
def ctx9 : Ctx :=
  { fx := fx155
    feeRate := 99 / 20000
    prices := fun _ => some 110
    sectors := fun _ => "Tech"
    hasCurrency := true
    hasSector := true
    hasRealized := false }

def hZ9 : Holding :=
  { ticker := "ZZZ", asset_type := "stock", shares := 1, buy_price := 100
    currency := "USD", sector := "Tech" }

def hA9 : Holding :=
  { ticker := "AAA", asset_type := "stock", shares := 1, buy_price := 100
    currency := "USD", sector := "Tech" }

/-- Two identically-performing stock lots whose input order (`ZZZ` before
`AAA`) is the reverse of alphabetical order. -/
def df9 : List Holding := [hZ9, hA9]

/-- The valued `ZZZ` row before the contribution column: fee `100*1*0.00495`,
cost basis `100.495`, market value `110`, P&L `9.505` (≈ 9.46%). -/
def zB9 : ValuedRow :=
  { ticker := "ZZZ", asset_type := "stock", currency := "USD", sector := "Tech"
    shares := 1, buy_price := 100, fee := 99 / 200, cost_basis := 20099 / 200
    fx_to_jpy := 155, cost_jpy := 623069 / 40, realized_pnl_jpy := 0
    prev_close := .fin 110, market_value := .fin 110, pnl_abs := .fin (1901 / 200)
    pnl_pct := .fin (190100 / 20099), mv_jpy := .fin 17050, pnl_jpy := .fin (58931 / 40)
    pnl_contrib := .fin 0, pnl_over_mv_pct := .fin (1901 / 220) }

/-- The valued `AAA` row before the contribution column (same numbers). -/
def aB9 : ValuedRow := { zB9 with ticker := "AAA" }

/-- The final valued rows: each lot contributes half of the total P&L. -/
def vZ9 : ValuedRow := { zB9 with pnl_contrib := .fin 50 }

def vA9 : ValuedRow := { aB9 with pnl_contrib := .fin 50 }

/-- The aggregated per-ticker group rows of the tie scenario. -/
def gZ9 : TSRow :=
  { ticker := "ZZZ", asset_type := "stock", shares := 1, buy_price := 100
    prev_close := .fin 110, market_value := .fin 110, pnl_abs := .fin (1901 / 200)
    pnl_pct := .fin (190100 / 20099), mv_jpy := .fin 17050, pnl_jpy := .fin (58931 / 40)
    pnl_ratio_pct := .fin 50, pnl_over_mv_pct := .fin (1901 / 220), sector := "Tech" }

def gA9 : TSRow := { gZ9 with ticker := "AAA" }

/-- The FX table of the trade-replay scenario (`fx = 150.0`). -/
def fx150 : List (String × ℚ) := [("USD", 150), ("JPY", 1)]

/-- A price provider with no data (the history code tolerates this for
non-stock rows, which never consult it). -/
def noPrices : String → Option ℚ := fun _ => none

/-- Portfolio row for ticker `AAA` with a parametric asset type and share
count, used to replay the single-buy scenario. -/
def hAAA (τ : String) (s₀ : ℚ) : Holding :=
  { ticker := "AAA", asset_type := τ, shares := s₀, buy_price := 100
    currency := "USD" }

/-- The single-trade ledger of the replay scenario: buy 10 `AAA` on day 0. -/
def buy10 : List Trade :=
  [{ date := 0, ticker := "AAA", action := "buy", shares := 10, currency := "USD" }]

/-- Price provider for the stock-row counterexample: `AAA` trades at 200. -/
def prices200 : String → Option ℚ := fun t => if t = "AAA" then some 200 else none

/-- A portfolio holding zero shares of cash asset `AAA` (so any sell
underflows). -/
def dfSell : List Holding :=
  [{ ticker := "AAA", asset_type := "cash", shares := 0, buy_price := 0
     currency := "JPY" }]

/-- A sell of 5 `AAA` on day 0 although none are held. -/
def trS : Trade :=
  { date := 0, ticker := "AAA", action := "sell", shares := 5, currency := "JPY" }

/-- A ledger that sells 5 `AAA` on day 0 although none are held. -/
def sell5 : List Trade := [trS]

/-- A one-row portfolio that does not mention ticker `BBB`. -/
def df10 : List Holding :=
  [{ ticker := "AAA", asset_type := "cash", shares := 1, buy_price := 0
     currency := "JPY" }]

/-- A ledger that buys 5 `BBB`, a ticker absent from `df10`. -/
def buyBBB : List Trade :=
  [{ date := 0, ticker := "BBB", action := "buy", shares := 5, currency := "USD" }]

end Scenario

open Valuation History Scenario

theorem psub_fin_fin (a b : ℚ) : psub (.fin a) (.fin b) = .fin (a - b) := by
  simp [psub, padd, pneg, sub_eq_add_neg]

theorem pmul_fin_fin (a b : ℚ) : pmul (.fin a) (.fin b) = .fin (a * b) := rfl

theorem pdiv_fin_fin (a b : ℚ) (hb : b ≠ 0) : pdiv (.fin a) (.fin b) = .fin (a / b) := by
  simp [pdiv, hb]

theorem finOrNan_ofOpt (o : Option ℚ) : finOrNan (ofOpt o) = true := by
  cases o <;> rfl

theorem finOrNan_pmul_fin_left (s : ℚ) (x : PFloat) (hx : finOrNan x = true) :
    finOrNan (pmul (.fin s) x) = true := by
  cases x <;> simp_all [pmul, finOrNan]

theorem finOrNan_pmul_fin_right (x : PFloat) (s : ℚ) (hx : finOrNan x = true) :
    finOrNan (pmul x (.fin s)) = true := by
  cases x <;> simp_all [pmul, finOrNan]

theorem finOrNan_psub_fin (x : PFloat) (b : ℚ) (hx : finOrNan x = true) :
    finOrNan (psub x (.fin b)) = true := by
  cases x <;> simp_all [psub, padd, pneg, finOrNan]

theorem psum_eq_qsum (l : List PFloat) (hl : ∀ x ∈ l, finOrNan x = true) :
    psum l = .fin (qsum l) := by
  induction l with
  | nil => rfl
  | cons x xs ih =>
    have hx := hl x (List.mem_cons_self x xs)
    have hxs := ih fun y hy => hl y (List.mem_cons_of_mem x hy)
    cases x with
    | fin q => simp [psum, qsum, hxs, isNan, padd, toQ]
    | nan => simp [psum, qsum, hxs, isNan, toQ]
    | pinf => simp [finOrNan] at hx
    | ninf => simp [finOrNan] at hx

theorem finOrNan_colPrevClose (c : Ctx) (tgts : List String) (h : Holding) :
    finOrNan (colPrevClose c tgts h) = true := by
  unfold colPrevClose
  split
  · exact finOrNan_ofOpt _
  · rfl

theorem finOrNan_colMarketValue (c : Ctx) (tgts : List String) (h : Holding) :
    finOrNan (colMarketValue c tgts h) = true := by
  unfold colMarketValue
  split
  · exact finOrNan_pmul_fin_left _ _ (finOrNan_colPrevClose c tgts h)
  · split <;> rfl

theorem finOrNan_colPnlAbs (c : Ctx) (tgts : List String) (h : Holding) :
    finOrNan (colPnlAbs c tgts h) = true :=
  finOrNan_psub_fin _ _ (finOrNan_colMarketValue c tgts h)

theorem finOrNan_colPnlJpy (c : Ctx) (tgts : List String) (h : Holding) :
    finOrNan (colPnlJpy c tgts h) = true :=
  finOrNan_psub_fin _ _ (finOrNan_pmul_fin_right _ _ (finOrNan_colMarketValue c tgts h))

theorem mem_calculate_portfolio {c : Ctx} {df : List Holding} {v : ValuedRow}
    (hv : v ∈ calculate_portfolio c df) :
    ∃ h, h ∈ df ∧ v = setContrib (totalPnlJpy c df) (valueRow c (targets df) h) := by
  rcases List.mem_map.mp hv with ⟨w, hw, rfl⟩
  rcases List.mem_map.mp hw with ⟨h, hh, rfl⟩
  exact ⟨h, hh, rfl⟩

theorem ticker_mem_targets {df : List Holding} {h : Holding}
    (hmem : h ∈ df) (heq : isEquity h = true) : h.ticker ∈ targets df :=
  List.mem_map.mpr ⟨h, List.mem_filter.mpr ⟨hmem, heq⟩, rfl⟩

/-- C1: for every holding row with asset_type `stock` or `crypto`, the
valuation computes `fee = buy_price * shares * fee_rate`,
`cost_basis = shares * buy_price + fee`, `pnl_abs = market_value - cost_basis`,
and, when the price provider returned `prev_close = p`,
`market_value = shares * p` with the derived absolute and percentage P&L. -/
theorem C1_equity_valuation (c : Ctx) (df : List Holding) (v : ValuedRow)
    (hv : v ∈ calculate_portfolio c df)
    (hty : v.asset_type = "stock" ∨ v.asset_type = "crypto") :
    v.fee = v.buy_price * v.shares * c.feeRate ∧
    v.cost_basis = v.shares * v.buy_price + v.fee ∧
    v.pnl_abs = psub v.market_value (.fin v.cost_basis) ∧
    ∀ p, c.prices v.ticker = some p →
      v.market_value = .fin (v.shares * p) ∧
      v.pnl_abs = .fin (v.shares * p - v.cost_basis) ∧
      (v.cost_basis ≠ 0 →
        v.pnl_pct = .fin ((v.shares * p - v.cost_basis) / v.cost_basis * 100)) := by
  rcases mem_calculate_portfolio hv with ⟨h, hmem, rfl⟩
  have hty' : h.asset_type = "stock" ∨ h.asset_type = "crypto" := hty
  have heq : isEquity h = true := by
    rcases hty' with h' | h' <;> simp [isEquity, h']
  have htg : h.ticker ∈ targets df := ticker_mem_targets hmem heq
  refine ⟨?_, ?_, ?_, ?_⟩
  · simp [setContrib, valueRow, colFee, heq]
  · simp [setContrib, valueRow, colCostBasis, colFee, heq]
  · simp [setContrib, valueRow, colPnlAbs]
  · intro p hp
    have hp' : c.prices h.ticker = some p := hp
    have hpc : colPrevClose c (targets df) h = .fin p := by
      simp [colPrevClose, htg, hp', ofOpt]
    have hmv : colMarketValue c (targets df) h = .fin (h.shares * p) := by
      simp [colMarketValue, heq, hpc, pmul_fin_fin]
    have hpa : colPnlAbs c (targets df) h = .fin (h.shares * p - colCostBasis c h) := by
      simp [colPnlAbs, hmv, psub_fin_fin]
    refine ⟨by simp [setContrib, valueRow, hmv], by simp [setContrib, valueRow, hpa], ?_⟩
    intro hcb
    have hcb' : colCostBasis c h ≠ 0 := hcb
    simp [setContrib, valueRow, colPnlPct, hpa, pdiv_fin_fin _ _ hcb', pmul_fin_fin]

/-- C1 witness: the Toyota scenario `{7203.T, stock, 100 shares, buy 2000,
JPY}` with `prev_close = 2100` and `fee_rate = 0.00495` yields `fee = 990`,
`cost_basis = 200990`, `market_value = 210000`, `pnl_abs = 9010` and
`pnl_pct = 901000/200990 ≈ 4.483 ≈ 4.484`. -/
theorem C1_scenario_witness :
    v1.fee = v1.buy_price * v1.shares * ctx1.feeRate ∧
    v1.fee = 990 ∧ v1.cost_basis = 200990 ∧
    v1.market_value = .fin 210000 ∧ v1.pnl_abs = .fin 9010 ∧
    v1.pnl_pct = .fin (90100 / 20099) ∧
    |(90100 : ℚ) / 20099 - 4484 / 1000| < 1 / 100 := by
  have main := C1_equity_valuation ctx1 df1 v1 (List.mem_singleton.mpr rfl) (Or.inl rfl)
  refine ⟨main.1, ?_, ?_, ?_, ?_, ?_, by rw [abs_sub_lt_iff]; constructor <;> norm_num⟩
  · simp [v1, calculate_portfolio, baseRows, targets, totalPnlJpy, valueRow, setContrib,
      colFee, isEquity, ctx1, h1, df1]
    norm_num
  · simp [v1, calculate_portfolio, baseRows, targets, totalPnlJpy, valueRow, setContrib,
      colCostBasis, colFee, isEquity, ctx1, h1, df1]
    norm_num
  · simp [v1, calculate_portfolio, baseRows, targets, totalPnlJpy, valueRow, setContrib,
      colMarketValue, colPrevClose, isEquity, ofOpt, pmul, ctx1, h1, df1]
    norm_num
  · simp [v1, calculate_portfolio, baseRows, targets, totalPnlJpy, valueRow, setContrib,
      colPnlAbs, colMarketValue, colPrevClose, colCostBasis, colFee, isEquity, ofOpt,
      pmul, psub, padd, pneg, ctx1, h1, df1]
    norm_num
  · simp [v1, calculate_portfolio, baseRows, targets, totalPnlJpy, valueRow, setContrib,
      colPnlPct, colPnlAbs, colMarketValue, colPrevClose, colCostBasis, colFee, isEquity,
      ofOpt, pmul, psub, padd, pneg, pdiv, ctx1, h1, df1]
    norm_num

/-- C2: every holding row with asset_type `cash` is valued with
`market_value = cost_basis = shares`, `fee = 0` and `pnl_abs = 0`. -/
theorem C2_cash_valuation (c : Ctx) (df : List Holding) (v : ValuedRow)
    (hv : v ∈ calculate_portfolio c df) (hty : v.asset_type = "cash") :
    v.market_value = .fin v.shares ∧ v.cost_basis = v.shares ∧
    v.fee = 0 ∧ v.pnl_abs = .fin 0 := by
  rcases mem_calculate_portfolio hv with ⟨h, hmem, rfl⟩
  have hty' : h.asset_type = "cash" := hty
  have heq : isEquity h = false := by simp [isEquity, hty']
  have hmv : colMarketValue c (targets df) h = .fin h.shares := by
    simp [colMarketValue, heq, hty']
  have hcb : colCostBasis c h = h.shares := by
    simp [colCostBasis, heq, hty']
  refine ⟨by simp [setContrib, valueRow, hmv], by simp [setContrib, valueRow, hcb], ?_, ?_⟩
  · simp [setContrib, valueRow, colFee, heq]
  · simp [setContrib, valueRow, colPnlAbs, hmv, hcb, psub_fin_fin]

/-- C2 witness: the cash scenario `{shares: 500000, currency: JPY}` has
`market_value = cost_basis = 500000`, `fee = 0` and `pnl_abs = 0`. -/
theorem C2_cash_witness :
    (v2.market_value = .fin v2.shares ∧ v2.cost_basis = v2.shares ∧
      v2.fee = 0 ∧ v2.pnl_abs = .fin 0) ∧
    v2.market_value = .fin 500000 ∧ v2.cost_basis = 500000 := by
  have main := C2_cash_valuation ctx1 df2 v2 (List.mem_singleton.mpr rfl) rfl
  refine ⟨main, ?_, ?_⟩
  · simp [v2, calculate_portfolio, baseRows, targets, totalPnlJpy, valueRow, setContrib,
      colMarketValue, isEquity, ctx1, h2, df2]
  · simp [v2, calculate_portfolio, baseRows, targets, totalPnlJpy, valueRow, setContrib,
      colCostBasis, colFee, isEquity, ctx1, h2, df2]

theorem notFinite_div_zero (x : PFloat) (hx : finOrNan x = true) :
    isFinite (pmul (pdiv x (.fin 0)) (.fin 100)) = false := by
  cases x with
  | fin q =>
    rcases lt_trichotomy q 0 with h | h | h
    · have h' : ¬ (0 : ℚ) < q := not_lt.mpr h.le
      norm_num [pdiv, pmul, isFinite, h, h']
    · subst h
      norm_num [pdiv, pmul, isFinite]
    · norm_num [pdiv, pmul, isFinite, h]
  | nan => norm_num [pdiv, pmul, isFinite]
  | pinf => simp [finOrNan] at hx
  | ninf => simp [finOrNan] at hx

/-- C3: the claim asserts the `pnl_pct` division is guarded so that a row
with `cost_basis = 0` never yields infinity or NaN.  Counterexample: a stock
row with `buy_price = 0` (cost basis 0) and a positive market value receives
`pnl_pct = +∞` — pandas evaluates `pnl_abs / cost_basis * 100` unguarded. -/
theorem C3_counterexample :
    v3 ∈ calculate_portfolio ctx3 df3 ∧ v3.cost_basis = 0 ∧
    v3.pnl_pct = PFloat.pinf := by
  refine ⟨List.mem_cons_self _ _, ?_, ?_⟩
  · simp [v3, calculate_portfolio, baseRows, targets, totalPnlJpy, valueRow, setContrib,
      colCostBasis, colFee, isEquity, ctx3, h3, h3z, df3]
  · simp [v3, calculate_portfolio, baseRows, targets, totalPnlJpy, valueRow, setContrib,
      colPnlPct, colPnlAbs, colMarketValue, colPrevClose, colCostBasis, colFee, isEquity,
      ofOpt, pmul, psub, padd, pneg, pdiv, ctx3, h3, h3z, df3]

/-- C3 amended: neither ratio division is guarded.  For any output row,
`cost_basis = 0` makes `pnl_pct` a non-finite float (±∞ or NaN) and
`mv_jpy = 0` makes `pnl_over_mv_pct` non-finite; no exception is raised (the
valuation still returns a value for every row). -/
theorem C3_divisions_unguarded (c : Ctx) (df : List Holding) (v : ValuedRow)
    (hv : v ∈ calculate_portfolio c df) :
    (v.cost_basis = 0 → isFinite v.pnl_pct = false) ∧
    (v.mv_jpy = .fin 0 → isFinite v.pnl_over_mv_pct = false) := by
  rcases mem_calculate_portfolio hv with ⟨h, hmem, rfl⟩
  constructor
  · intro hcb
    have hcb' : colCostBasis c h = 0 := hcb
    have : (setContrib (totalPnlJpy c df) (valueRow c (targets df) h)).pnl_pct
        = pmul (pdiv (colPnlAbs c (targets df) h) (.fin 0)) (.fin 100) := by
      simp [setContrib, valueRow, colPnlPct, hcb']
    rw [this]
    exact notFinite_div_zero _ (finOrNan_colPnlAbs c (targets df) h)
  · intro hmv
    have hmv' : colMvJpy c (targets df) h = .fin 0 := hmv
    have : (setContrib (totalPnlJpy c df) (valueRow c (targets df) h)).pnl_over_mv_pct
        = pmul (pdiv (colPnlJpy c (targets df) h) (.fin 0)) (.fin 100) := by
      simp [setContrib, valueRow, colPnlOverMv, hmv']
    rw [this]
    exact notFinite_div_zero _ (finOrNan_colPnlJpy c (targets df) h)

/-- C3 amended witness: the zero-cost stock row has a non-finite `pnl_pct`
and the empty cash row has `mv_jpy = 0` with a non-finite `pnl_over_mv_pct`. -/
theorem C3_unguarded_witness :
    v3.cost_basis = 0 ∧ isFinite v3.pnl_pct = false ∧
    v3z.mv_jpy = .fin 0 ∧ isFinite v3z.pnl_over_mv_pct = false := by
  have hcb : v3.cost_basis = 0 := by
    simp [v3, calculate_portfolio, baseRows, targets, totalPnlJpy, valueRow, setContrib,
      colCostBasis, colFee, isEquity, ctx3, h3, h3z, df3]
  have hmv : v3z.mv_jpy = .fin 0 := by
    simp [v3z, calculate_portfolio, baseRows, targets, totalPnlJpy, valueRow, setContrib,
      colMvJpy, colMarketValue, colPrevClose, colCostBasis, colFee, colFxToJpy, colCurrency,
      fxMul, alookup, isEquity, ofOpt, pmul, fx155, ctx3, h3, h3z, df3]
  refine ⟨hcb, ?_, hmv, ?_⟩
  · exact (C3_divisions_unguarded ctx3 df3 v3 (List.mem_cons_self _ _)).1 hcb
  · exact (C3_divisions_unguarded ctx3 df3 v3z
      (List.mem_cons_of_mem _ (List.mem_singleton.mpr rfl))).2 hmv

theorem qsum_map_contrib (T : ℚ) (hT : T ≠ 0) (l : List PFloat)
    (hl : ∀ x ∈ l, finOrNan x = true) :
    qsum (l.map (fun x => pmul (pdiv x (.fin T)) (.fin 100))) = qsum l / T * 100 := by
  induction l with
  | nil => simp [qsum]
  | cons x xs ih =>
    have hx := hl x (List.mem_cons_self x xs)
    have hxs := ih fun y hy => hl y (List.mem_cons_of_mem x hy)
    cases x with
    | fin q =>
      have hq : pmul (pdiv (.fin q) (.fin T)) (.fin 100) = .fin (q / T * 100) := by
        rw [pdiv_fin_fin _ _ hT, pmul_fin_fin]
      simp [qsum, toQ, hq, hxs]
      ring
    | nan =>
      have hn : pmul (pdiv PFloat.nan (.fin T)) (.fin 100) = PFloat.nan := rfl
      simp [qsum, toQ, hn, hxs]
    | pinf => simp [finOrNan] at hx
    | ninf => simp [finOrNan] at hx

theorem finOrNan_contrib (T : ℚ) (hT : T ≠ 0) (x : PFloat) (hx : finOrNan x = true) :
    finOrNan (pmul (pdiv x (.fin T)) (.fin 100)) = true := by
  cases x with
  | fin q => simp [pdiv_fin_fin _ _ hT, pmul_fin_fin, finOrNan]
  | nan => simp [pdiv, pmul, finOrNan]
  | pinf => simp [finOrNan] at hx
  | ninf => simp [finOrNan] at hx

theorem finOrNan_base_pnl_jpy (c : Ctx) (df : List Holding) :
    ∀ x ∈ (baseRows c df).map (fun v => v.pnl_jpy), finOrNan x = true := by
  intro x hx
  rcases List.mem_map.mp hx with ⟨v, hv, rfl⟩
  rcases List.mem_map.mp hv with ⟨h, _, rfl⟩
  exact finOrNan_colPnlJpy c (targets df) h

theorem map_pnl_jpy_calc (c : Ctx) (df : List Holding) :
    (calculate_portfolio c df).map (fun v => v.pnl_jpy)
      = (baseRows c df).map (fun v => v.pnl_jpy) := by
  simp [calculate_portfolio, List.map_map, setContrib]

/-- C4: for every valued table, when the total JPY P&L is nonzero each row's
contribution column is `pnl_jpy / total * 100` and the contributions sum
(pandas `skipna` sum) to exactly 100; when the total is zero every row's
contribution is 0. -/
theorem C4_contribution (c : Ctx) (df : List Holding) (total : PFloat)
    (htotal : total = psum ((calculate_portfolio c df).map (fun v => v.pnl_jpy))) :
    (total ≠ .fin 0 →
      (∀ v ∈ calculate_portfolio c df,
        v.pnl_contrib = pmul (pdiv v.pnl_jpy total) (.fin 100)) ∧
      psum ((calculate_portfolio c df).map (fun v => v.pnl_contrib)) = .fin 100) ∧
    (total = .fin 0 → ∀ v ∈ calculate_portfolio c df, v.pnl_contrib = .fin 0) := by
  have hfin := finOrNan_base_pnl_jpy c df
  have htq : totalPnlJpy c df = .fin (qsum ((baseRows c df).map (fun v => v.pnl_jpy))) :=
    psum_eq_qsum _ hfin
  have htot' : total = totalPnlJpy c df := by
    rw [htotal, map_pnl_jpy_calc]; rfl
  constructor
  · intro hne
    have hTq : qsum ((baseRows c df).map (fun v => v.pnl_jpy)) ≠ 0 := by
      intro h0
      exact hne (by rw [htot', htq, h0])
    have hTne : totalPnlJpy c df ≠ .fin 0 := by rw [← htot']; exact hne
    constructor
    · intro v hv
      rcases mem_calculate_portfolio hv with ⟨h, hmem, rfl⟩
      rw [htot']
      simp [setContrib, hTne]
    · have hmap : (calculate_portfolio c df).map (fun v => v.pnl_contrib)
          = ((baseRows c df).map (fun v => v.pnl_jpy)).map
              (fun x => pmul (pdiv x (totalPnlJpy c df)) (.fin 100)) := by
        simp [calculate_portfolio, List.map_map, setContrib, hTne]
      rw [hmap, htq]
      rw [psum_eq_qsum _ (by
        intro x hx
        rcases List.mem_map.mp hx with ⟨y, hy, rfl⟩
        exact finOrNan_contrib _ hTq _ (hfin y hy))]
      rw [qsum_map_contrib _ hTq _ hfin]
      rw [div_self hTq]
      norm_num
  · intro h0 v hv
    rcases mem_calculate_portfolio hv with ⟨h, hmem, rfl⟩
    have h0' : totalPnlJpy c df = .fin 0 := by rw [← htot']; exact h0
    simp [setContrib, h0']

/-- C4 witness: on the Toyota scenario the total P&L is `9010 ≠ 0` and the
single row's contribution column sums to exactly 100. -/
theorem C4_contribution_witness :
    psum ((calculate_portfolio ctx1 df1).map (fun v => v.pnl_contrib)) = .fin 100 := by
  refine ((C4_contribution ctx1 df1 _ rfl).1 ?_).2
  simp [calculate_portfolio, baseRows, targets, totalPnlJpy, valueRow, setContrib,
    colPnlJpy, colMvJpy, colCostJpy, colFxToJpy, colCurrency, colMarketValue, colPrevClose,
    colCostBasis, colFee, fxMul, alookup, isEquity, ofOpt, psum, isNan, pmul, psub, padd,
    pneg, fx155, ctx1, h1, df1]
  norm_num

/-- C7: `guess_currency` maps `.T`-suffixed tickers to JPY and everything
else to USD, and an explicit `currency` column always takes precedence: with
the column present the valued rows carry the column's values verbatim, and
with it absent they carry the inferred ones. -/
theorem C7_currency_inference :
    (∀ t : String,
      (strEndsWith t ".T" = true → guess_currency t = "JPY") ∧
      (strEndsWith t ".T" = false → guess_currency t = "USD")) ∧
    (∀ (c : Ctx) (df : List Holding), c.hasCurrency = true →
      (calculate_portfolio c df).map (fun v => v.currency)
        = df.map (fun h => h.currency)) ∧
    (∀ (c : Ctx) (df : List Holding), c.hasCurrency = false →
      (calculate_portfolio c df).map (fun v => v.currency)
        = df.map (fun h => guess_currency h.ticker)) := by
  refine ⟨fun t => ⟨fun h => by simp [guess_currency, h],
                    fun h => by simp [guess_currency, h]⟩, ?_, ?_⟩
  · intro c df hc
    simp [calculate_portfolio, baseRows, List.map_map, setContrib, valueRow, colCurrency, hc]
  · intro c df hc
    simp [calculate_portfolio, baseRows, List.map_map, setContrib, valueRow, colCurrency, hc]

/-- C7 witness: `7203.T` infers JPY, `AAPL` infers USD, and on the Toyota
table (which has a `currency` column saying JPY) the column is preserved. -/
theorem C7_currency_witness :
    guess_currency "7203.T" = "JPY" ∧ guess_currency "AAPL" = "USD" ∧
    (calculate_portfolio ctx1 df1).map (fun v => v.currency) = ["JPY"] := by
  refine ⟨(C7_currency_inference.1 "7203.T").1 (by decide),
          (C7_currency_inference.1 "AAPL").2 (by decide), ?_⟩
  rw [C7_currency_inference.2.1 ctx1 df1 rfl]
  rfl

/-- C8: a currency code absent from the FX table is converted with multiplier
exactly 1 (treated as already-JPY): `fx_to_jpy = 1`, so `mv_jpy` is the raw
market value and `cost_jpy` the raw cost basis; the `map`/`fillna` pipeline is
total, so no row can fail on an unknown code. -/
theorem C8_unknown_currency (c : Ctx) (df : List Holding) (v : ValuedRow)
    (hv : v ∈ calculate_portfolio c df) (hmiss : alookup c.fx v.currency = none) :
    v.fx_to_jpy = 1 ∧ v.mv_jpy = pmul v.market_value (.fin 1) ∧
    v.cost_jpy = v.cost_basis := by
  rcases mem_calculate_portfolio hv with ⟨h, hmem, rfl⟩
  have hmiss' : alookup c.fx (colCurrency c h) = none := hmiss
  have hfx : colFxToJpy c h = 1 := by simp [colFxToJpy, fxMul, hmiss']
  refine ⟨hfx, ?_, ?_⟩
  · show colMvJpy c (targets df) h = pmul (colMarketValue c (targets df) h) (.fin 1)
    simp [colMvJpy, hfx]
  · show colCostJpy c h = colCostBasis c h
    simp [colCostJpy, hfx]

/-- C8 witness: the `EUR` cash row (EUR is not in the FX table) gets
multiplier 1 and `cost_jpy = cost_basis`. -/
theorem C8_unknown_currency_witness :
    v8.fx_to_jpy = 1 ∧ v8.mv_jpy = pmul v8.market_value (.fin 1) ∧
    v8.cost_jpy = v8.cost_basis :=
  C8_unknown_currency ctx1 df8 v8 (List.mem_singleton.mpr rfl) rfl

theorem pgt_asymm {a b : PFloat} (h : pgt a b = true) : pgt b a = false := by
  cases a <;> cases b <;>
    simp_all [pgt, decide_eq_true_eq, decide_eq_false_iff_not]
  exact le_of_lt h

theorem pgt_nan_left (y : PFloat) : pgt PFloat.nan y = false := by
  cases y <;> rfl

theorem sortedDesc_cons (a : TSRow) (l : List TSRow) :
    sortedDesc (a :: l) = true ↔
      (∀ b, l.head? = some b → pgt b.pnl_pct a.pnl_pct = false) ∧
      sortedDesc l = true := by
  cases l with
  | nil => simp [sortedDesc]
  | cons b t =>
    simp only [sortedDesc, List.head?, Bool.and_eq_true, Bool.not_eq_true']
    constructor
    · rintro ⟨h1, h2⟩
      exact ⟨fun b' hb' => by cases hb'; exact h1, h2⟩
    · rintro ⟨h1, h2⟩
      exact ⟨h1 b rfl, h2⟩

theorem insertDesc_head? (x : TSRow) (l : List TSRow) :
    (insertDesc x l).head? = some x ∨ (insertDesc x l).head? = l.head? := by
  cases l with
  | nil => left; rfl
  | cons y ys =>
    rw [insertDesc]
    split
    · right; rfl
    · left; rfl

theorem sortedDesc_insertDesc (x : TSRow) :
    ∀ l : List TSRow, sortedDesc l = true → sortedDesc (insertDesc x l) = true
  | [], _ => rfl
  | y :: ys, hl => by
    have hparts := (sortedDesc_cons y ys).mp hl
    cases hgt : pgt y.pnl_pct x.pnl_pct with
    | true =>
      have tail_sorted := sortedDesc_insertDesc x ys hparts.2
      rw [insertDesc, if_pos hgt]
      apply (sortedDesc_cons y _).mpr
      refine ⟨?_, tail_sorted⟩
      intro b hb
      rcases insertDesc_head? x ys with hh | hh
      · rw [hh] at hb
        cases hb
        exact pgt_asymm hgt
      · rw [hh] at hb
        exact hparts.1 b hb
    | false =>
      rw [insertDesc, if_neg (by simp [hgt])]
      apply (sortedDesc_cons x _).mpr
      refine ⟨?_, hl⟩
      intro b hb
      cases hb
      exact hgt

theorem sortedDesc_sortDescRows (l : List TSRow) :
    sortedDesc (sortDescRows l) = true := by
  induction l with
  | nil => rfl
  | cons x xs ih => exact sortedDesc_insertDesc x _ ih

theorem sortedDesc_allNan :
    ∀ l : List TSRow, (∀ g ∈ l, isNan g.pnl_pct = true) → sortedDesc l = true
  | [], _ => rfl
  | [_], _ => rfl
  | a :: b :: t, h => by
    have hb : isNan b.pnl_pct = true := h b (by simp)
    have hpgt : pgt b.pnl_pct a.pnl_pct = false := by
      cases hx : b.pnl_pct <;> simp_all [isNan, pgt]
    have ht := sortedDesc_allNan (b :: t) fun g hg => h g (List.mem_cons_of_mem a hg)
    simp [sortedDesc, hpgt, ht]

theorem sortedDesc_append (l₂ : List TSRow)
    (h₂ : ∀ g ∈ l₂, isNan g.pnl_pct = true) :
    ∀ l₁ : List TSRow, sortedDesc l₁ = true → sortedDesc (l₁ ++ l₂) = true
  | [], _ => by simpa using sortedDesc_allNan l₂ h₂
  | a :: t, h₁ => by
    have hparts := (sortedDesc_cons a t).mp h₁
    have ht := sortedDesc_append l₂ h₂ t hparts.2
    apply (sortedDesc_cons a (t ++ l₂)).mpr
    refine ⟨?_, ht⟩
    intro b hb
    cases t with
    | nil =>
      cases l₂ with
      | nil => cases hb
      | cons c cs =>
        cases hb
        have hc : isNan b.pnl_pct = true := h₂ b (List.mem_cons_self _ _)
        cases hx : b.pnl_pct <;> simp_all [isNan, pgt]
    | cons u us =>
      cases hb
      exact hparts.1 _ rfl

/-- C9 counterexample: the claim says ties in `pnl_pct` keep their input
order.  With input order `ZZZ` before `AAA` and identical performance, the
summary lists `AAA` before `ZZZ`: `groupby("ticker")` sorts the group keys
alphabetically before the (stable) `sort_values`, so ties come out in ticker
order, not input order. -/
theorem C9_counterexample :
    df9.map (fun h => h.ticker) = ["ZZZ", "AAA"] ∧
    (ticker_summary (calculate_portfolio ctx9 df9)).map (fun g => (g.ticker, g.pnl_pct))
      = [("AAA", .fin (190100 / 20099)), ("ZZZ", .fin (190100 / 20099))] := by
  have hbZ : valueRow ctx9 ["ZZZ", "AAA"] hZ9 = zB9 := by
    simp [valueRow, zB9, hZ9, colCurrency, colSector, colFee, colPrevClose, colMarketValue,
      colCostBasis, colPnlAbs, colPnlPct, colFxToJpy, colMvJpy, colCostJpy, colPnlJpy,
      colPnlOverMv, fxMul, alookup, isEquity, ofOpt, pmul, pdiv, psub, padd, pneg, fx155, ctx9]
    norm_num
  have hbA : valueRow ctx9 ["ZZZ", "AAA"] hA9 = aB9 := by
    simp [valueRow, aB9, zB9, hA9, colCurrency, colSector, colFee, colPrevClose,
      colMarketValue, colCostBasis, colPnlAbs, colPnlPct, colFxToJpy, colMvJpy, colCostJpy,
      colPnlJpy, colPnlOverMv, fxMul, alookup, isEquity, ofOpt, pmul, pdiv, psub, padd,
      pneg, fx155, ctx9]
    norm_num
  have htg : targets df9 = ["ZZZ", "AAA"] := by
    simp [targets, isEquity, df9, hZ9, hA9]
  have hbase : baseRows ctx9 df9 = [zB9, aB9] := by
    unfold baseRows
    rw [htg]
    simp only [df9, List.map_cons, List.map_nil]
    rw [hbZ, hbA]
  have htot : totalPnlJpy ctx9 df9 = .fin (58931 / 20) := by
    unfold totalPnlJpy
    rw [hbase]
    simp [zB9, aB9, psum, isNan, padd]
    norm_num
  have hc : calculate_portfolio ctx9 df9 = [vZ9, vA9] := by
    unfold calculate_portfolio
    rw [hbase, htot]
    simp [setContrib, zB9, aB9, vZ9, vA9, pdiv, pmul]
    norm_num
  have hkeys : sortStr (dedupKeys [] ([vZ9, vA9].map (fun v => v.ticker)))
      = ["AAA", "ZZZ"] := by decide
  have hts : ticker_summary [vZ9, vA9] = [gA9, gZ9] := by
    unfold ticker_summary
    rw [hkeys]
    simp [aggGroup, sortDescRows, insertDesc, pgt, pmean, pfirst, psum, isNan, qlsum,
      pdiv, padd, toQ, vZ9, vA9, zB9, aB9, gZ9, gA9, decide_eq_true_eq]
  refine ⟨rfl, ?_⟩
  rw [hc, hts]
  simp [gA9, gZ9]

/-- C9 amended: the per-ticker summary is ordered descending by `pnl_pct` in
the sense that no row's `pnl_pct` strictly exceeds its predecessor's (NaN rows
are placed last); equal-`pnl_pct` groups appear in the groupby's ascending
ticker order, not the input order. -/
theorem C9_sorted_desc (out : List ValuedRow) :
    sortedDesc (ticker_summary out) = true := by
  unfold ticker_summary
  apply sortedDesc_append
  · intro g hg
    exact (List.mem_filter.mp hg).2
  · exact sortedDesc_sortDescRows _

theorem alookup_updAssoc_self (k : String) (v : ℚ) :
    ∀ st : List (String × ℚ), alookup (updAssoc st k v) k = some v
  | [] => by simp [updAssoc, alookup]
  | (k', v') :: rest => by
    by_cases h : k' = k
    · simp [updAssoc, h, alookup]
    · simp [updAssoc, h, alookup, alookup_updAssoc_self k v rest]

theorem lookupD_updAssoc_self (st : List (String × ℚ)) (k : String) (v : ℚ) :
    lookupD (updAssoc st k v) k = v := by
  simp [lookupD, alookup_updAssoc_self]

/-- C5 amended: a `sell` trade decrements the held share count
unconditionally — `holdings[t] = holdings.get(t, 0) - qty` — with no balance
check and no flagging, so the count can silently become negative. -/
theorem C5_sell_unchecked (st : List (String × ℚ)) (tr : Trade)
    (hs : tr.action = "sell") :
    lookupD (applyTrade st tr) tr.ticker = lookupD st tr.ticker - tr.shares := by
  have hnb : ¬ tr.action = "buy" := by simp [hs]
  rw [applyTrade, if_pos (Or.inr hs), tradeDelta, if_neg hnb, if_pos hs,
    lookupD_updAssoc_self]
  ring

/-- C5 amended witness: selling 5 from an empty book leaves a count of −5. -/
theorem C5_sell_witness : lookupD (applyTrade [] trS) trS.ticker = -5 := by
  rw [C5_sell_unchecked [] trS rfl]
  norm_num [lookupD, alookup, trS]

/-- C5 counterexample: the claim says the replay flags a sell against a zero
balance instead of letting the count go negative.  In fact, selling 5 `AAA`
while holding 0 drives the replay's count for `AAA` to −5 and `apply_trades`
still returns a normal series (`[0, -5]`) with no sign of any issue. -/
theorem C5_counterexample :
    lookupD (stepDay sell5 (initHoldings dfSell) 0) "AAA" = -5 ∧
    apply_trades fx155 noPrices dfSell sell5 0 = some [0, -5] := by
  have hinit : initHoldings dfSell = [("AAA", 0)] := by
    simp [initHoldings, dfSell, updAssoc]
  have hsd : stepDay sell5 [("AAA", (0 : ℚ))] 0 = [("AAA", -5)] := by
    simp [stepDay, tradesOn, sell5, trS, applyTrade, tradeDelta, updAssoc, lookupD, alookup]
  have hdr : dateRange (0 - 1) 0 = [-1, 0] := by decide
  constructor
  · rw [hinit, hsd]
    simp [lookupD, alookup]
  · have hsd1 : stepDay sell5 [("AAA", (0 : ℚ))] (-1) = [("AAA", 0)] := by
      simp [stepDay, tradesOn, sell5, trS]
    have htv0 : totalValue fx155 noPrices dfSell [("AAA", (0 : ℚ))] = some 0 := by
      simp [totalValue]
    have htv5 : totalValue fx155 noPrices dfSell [("AAA", (-5 : ℚ))] = some (-5) := by
      simp [totalValue, findRow, dfSell, fxGet, alookup, fx155]
    have hmd : minDate sell5 = some 0 := by simp [minDate, sell5, trS]
    rw [apply_trades, hmd]
    show replay fx155 noPrices dfSell sell5 (dateRange (0 - 1) 0) (initHoldings dfSell)
      = some [0, -5]
    rw [hdr, hinit]
    simp only [replay]
    rw [hsd1, hsd, htv0, htv5]
    rfl

/-- C6 counterexample: the claim says a buy of 10 with fx 150 raises `Total`
by exactly `10 * 150 = 1500` on its date.  For a ticker whose portfolio row is
a `stock`, the replay instead adds `price * fx * qty`: with `AAA` trading at
200 the day's total jumps from the baseline 0 to `200 * 150 * 10 = 300000`,
not 1500. -/
theorem C6_counterexample :
    totalValue fx150 prices200 [hAAA "stock" 0] (initHoldings [hAAA "stock" 0])
      = some 0 ∧
    apply_trades fx150 prices200 [hAAA "stock" 0] buy10 0 = some [0, 300000] ∧
    (300000 : ℚ) - 0 ≠ 1500 := by
  have hinit : initHoldings [hAAA "stock" 0] = [("AAA", 0)] := by
    simp [initHoldings, hAAA, updAssoc]
  have htv0 : totalValue fx150 prices200 [hAAA "stock" 0] [("AAA", (0 : ℚ))]
      = some 0 := by
    simp [totalValue]
  have htv10 : totalValue fx150 prices200 [hAAA "stock" 0] [("AAA", (10 : ℚ))]
      = some 300000 := by
    simp [totalValue, findRow, hAAA, prices200, fxGet, alookup, fx150]
    norm_num
  have hdr : dateRange (0 - 1) 0 = [-1, 0] := by decide
  have hsd1 : stepDay buy10 [("AAA", (0 : ℚ))] (-1) = [("AAA", 0)] := by
    simp [stepDay, tradesOn, buy10]
  have hsd2 : stepDay buy10 [("AAA", (0 : ℚ))] 0 = [("AAA", 10)] := by
    simp [stepDay, tradesOn, buy10, applyTrade, tradeDelta, updAssoc, lookupD, alookup]
  refine ⟨by rw [hinit]; exact htv0, ?_, by norm_num⟩
  have hmd : minDate buy10 = some 0 := by simp [minDate, buy10]
  rw [apply_trades, hmd]
  show replay fx150 prices200 [hAAA "stock" 0] buy10 (dateRange (0 - 1) 0)
      (initHoldings [hAAA "stock" 0]) = some [0, 300000]
  rw [hdr, hinit]
  simp only [replay]
  rw [hsd1, hsd2, htv0, htv10]
  rfl

/-- C6 amended: replaying the single-buy ledger (10 shares of `AAA` on day 0,
`USD → 150`) over the window `[−1, 0, 1]` against a one-row portfolio whose
`AAA` row is *not* a stock yields exactly the no-trade baseline `s₀ * 150`
the day before the trade and baseline + 1500 on the trade date (and after);
for a stock row the jump is `prev_close * 150 * 10` instead. -/
theorem C6_nonstock_buy (τ : String) (hτ : τ ≠ "stock") (s₀ : ℚ)
    (prices : String → Option ℚ) :
    totalValue fx150 prices [hAAA τ s₀] (initHoldings [hAAA τ s₀])
      = some (s₀ * 150) ∧
    apply_trades fx150 prices [hAAA τ s₀] buy10 1
      = some [s₀ * 150, s₀ * 150 + 1500, s₀ * 150 + 1500] := by
  have hinit : initHoldings [hAAA τ s₀] = [("AAA", s₀)] := by
    simp [initHoldings, hAAA, updAssoc]
  have htv : ∀ q : ℚ, totalValue fx150 prices [hAAA τ s₀] [("AAA", q)]
      = some (q * 150) := by
    intro q
    by_cases hq : q = 0
    · subst hq
      simp [totalValue]
    · simp [totalValue, hq, findRow, hAAA, hτ, fxGet, alookup, fx150]
  have hdr : dateRange (0 - 1) 1 = [-1, 0, 1] := by decide
  have hsd1 : stepDay buy10 [("AAA", s₀)] (-1) = [("AAA", s₀)] := by
    simp [stepDay, tradesOn, buy10]
  have hsd2 : stepDay buy10 [("AAA", s₀)] 0 = [("AAA", s₀ + 10)] := by
    simp [stepDay, tradesOn, buy10, applyTrade, tradeDelta, updAssoc, lookupD, alookup]
  have hsd3 : stepDay buy10 [("AAA", s₀ + 10)] 1 = [("AAA", s₀ + 10)] := by
    simp [stepDay, tradesOn, buy10]
  refine ⟨by rw [hinit]; exact htv s₀, ?_⟩
  have hmd : minDate buy10 = some 0 := by simp [minDate, buy10]
  rw [apply_trades, hmd]
  show replay fx150 prices [hAAA τ s₀] buy10 (dateRange (0 - 1) 1)
      (initHoldings [hAAA τ s₀])
    = some [s₀ * 150, s₀ * 150 + 1500, s₀ * 150 + 1500]
  rw [hdr, hinit]
  simp only [replay]
  rw [hsd1, hsd2, hsd3, htv s₀, htv (s₀ + 10)]
  simp only [Option.some_bind, Option.some.injEq, List.cons.injEq, and_true]
  ring_nf
  simp

/-- C6 amended witness: a cash `AAA` row holding 3 units gives baseline 450
and series `[450, 1950, 1950]` — the trade adds exactly 1500 on day 0. -/
theorem C6_buy_witness :
    totalValue fx150 noPrices [hAAA "cash" 3] (initHoldings [hAAA "cash" 3])
      = some 450 ∧
    apply_trades fx150 noPrices [hAAA "cash" 3] buy10 1
      = some [450, 1950, 1950] := by
  have h := C6_nonstock_buy "cash" (by simp) 3 noPrices
  constructor
  · rw [h.1]
    norm_num
  · rw [h.2]
    norm_num

theorem totalValue_none_of_bad (fx : List (String × ℚ)) (prices : String → Option ℚ)
    (df : List Holding) (x : String) (hrow : findRow df x = none) :
    ∀ st : List (String × ℚ), lookupD st x ≠ 0 →
      totalValue fx prices df st = none := by
  intro st
  induction st with
  | nil => intro h; exact absurd rfl h
  | cons p rest ih =>
    obtain ⟨t, q⟩ := p
    intro hne
    by_cases htx : t = x
    · subst htx
      have hq : q ≠ 0 := by
        intro h0
        apply hne
        simp [lookupD, alookup, h0]
      simp [totalValue, hq, hrow]
    · have hlk : lookupD ((t, q) :: rest) x = lookupD rest x := by
        simp [lookupD, alookup, htx]
      rw [hlk] at hne
      have hrest := ih hne
      by_cases hq : q = 0
      · simp [totalValue, hq, hrest]
      · cases hfr : findRow df t with
        | none => simp [totalValue, hq, hfr]
        | some row => simp [totalValue, hq, hfr, hrest]

theorem replay_none_of_badIn (fx : List (String × ℚ)) (prices : String → Option ℚ)
    (df : List Holding) (trades : List Trade) (x : String)
    (hrow : findRow df x = none) :
    ∀ (dates : List ℤ) (st : List (String × ℚ)),
      badIn trades x dates st = true →
      replay fx prices df trades dates st = none := by
  intro dates
  induction dates with
  | nil => intro st h; simp [badIn] at h
  | cons d ds ih =>
    intro st h
    rw [badIn] at h
    simp only [Bool.or_eq_true, decide_eq_true_eq] at h
    rcases h with h1 | h2
    · rw [replay, totalValue_none_of_bad fx prices df x hrow _ h1]
      rfl
    · rw [replay]
      cases htv : totalValue fx prices df (stepDay trades st d) with
      | none => rfl
      | some v => simp [ih _ h2]

/-- C10: when the trade ledger mentions a ticker `x` that has no row in the
holdings table, and the replay's running count for `x` is nonzero after some
day in the reconstructed window (`badIn`), the per-ticker row lookup
(`.iloc[0]` on an empty selection) fails, so `apply_trades` returns no
series at all. -/
theorem C10_missing_ticker_fails (fx : List (String × ℚ))
    (prices : String → Option ℚ) (df : List Holding) (trades : List Trade)
    (today : ℤ) (x : String) (m : ℤ)
    (hrow : findRow df x = none) (hmin : minDate trades = some m)
    (hbad : badIn trades x (dateRange (m - 1) today) (initHoldings df) = true) :
    apply_trades fx prices df trades today = none := by
  unfold apply_trades
  rw [hmin]
  exact replay_none_of_badIn fx prices df trades x hrow _ _ hbad

/-- C10 witness: buying 5 `BBB` when the portfolio only lists `AAA` makes the
reconstruction fail (`apply_trades` returns nothing). -/
theorem C10_missing_ticker_witness :
    apply_trades fx155 noPrices df10 buyBBB 0 = none := by
  apply C10_missing_ticker_fails fx155 noPrices df10 buyBBB 0 "BBB" 0
  · simp [findRow, df10]
  · simp [minDate, buyBBB]
  · have hdr : dateRange (0 - 1) 0 = [-1, 0] := by decide
    rw [hdr]
    simp [badIn, stepDay, tradesOn, buyBBB, applyTrade, tradeDelta, updAssoc,
      lookupD, alookup, initHoldings, df10, decide_eq_true_eq]

end FamilyPortfolio
